import Mathlib

/-!
Shallow embedding of the ABI-reconstruction core of the `getmefcknabi`
repository (main file `src/app/lib/whatsabi.ts`, persisted cache in the
Dexie layer) together with theorems settling the frozen claims about it.

Conventions of the embedding:
* JavaScript dynamic objects become structures with `Option` fields; a JS
  `undefined`/missing field is `none`, and JS string truthiness is modelled
  by `strFalsy` (`undefined` or `""` are falsy).
* String primitives (split, trim, toLowerCase, slice) are embedded as
  structurally recursive functions over the character list so that every
  theorem can be checked on concrete inputs by kernel reduction.
* Network effects are modelled by explicit environment records of response
  functions, and every function that issues network requests also returns
  the ordered list of requests it made (`List NetCall`).
* External libraries (viem, @shazow/whatsabi, Dexie) are modelled at their
  call boundary: their result values are parameters of the environment,
  except where a claim depends on their documented semantics (`isAddress`),
  which is then modelled from that documentation.
-/

/-- A single ABI parameter `{name, type}` as it appears in the JS objects. -/
structure Param where
  name : String
  type : String
deriving DecidableEq, Repr

/-- A dynamic ABI item as handled by `whatsabi.ts` (the fields the code
reads or writes; `none` models a JS `undefined` field). -/
structure AbiItem where
  type : String
  selector : Option String
  name : Option String
  sig : Option String
  inputs : Option (List Param)
  outputs : Option (List Param)
  stateMutability : Option String
deriving DecidableEq, Repr

/-- JS string truthiness on an optional field: `undefined` and `""` are falsy. -/
def strFalsy : Option String → Bool
  | none => true
  | some s => s = ""

/-- JS `a || d` for an optional string `a` and a default string `d`. -/
def jsOrStr : Option String → String → String
  | none, d => d
  | some s, d => if s = "" then d else s

/-- Auxiliary splitter: JS `s.split(sep)` for a one-character separator. -/
def splitOnCharAux (sep : Char) : List Char → List Char → List (List Char)
  | [], acc => [acc.reverse]
  | c :: rest, acc =>
    if c = sep then acc.reverse :: splitOnCharAux sep rest []
    else splitOnCharAux sep rest (c :: acc)

/-- JS `s.split(sep)` for a one-character separator (`"".split(",") = [""]`). -/
def jsSplit (sep : Char) (s : String) : List String :=
  (splitOnCharAux sep s.data []).map String.mk

/-- JS `s.trim()`. -/
def jsTrim (s : String) : String :=
  String.mk (((s.data.dropWhile Char.isWhitespace).reverse.dropWhile Char.isWhitespace).reverse)

/-- JS `s.toLowerCase()` (ASCII case mapping suffices for the data involved). -/
def jsToLower (s : String) : String :=
  String.mk (s.data.map Char.toLower)

/-- JS `s.slice(start)` with a possibly negative start index. -/
def jsSliceFrom (s : String) (start : Int) : String :=
  let n : Int := s.length
  let b : Int := if 0 ≤ start then min start n else max (n + start) 0
  String.mk (s.data.drop b.toNat)

/-- JS `s.slice(2)` specialised (drops the `0x` selector prefix). -/
def dropTwo (s : String) : String :=
  String.mk (s.data.drop 2)

/-- Whether `pat` occurs as a contiguous substring (JS `includes`). -/
def containsSub (pat : List Char) : List Char → Bool
  | [] => pat.isEmpty
  | c :: rest => pat.isPrefixOf (c :: rest) || containsSub pat rest

/-- Embedding of the JS regex match `signature.match(/^([^(]+)\(([^)]*)\)(.*)$/)`
used by `processSignature` (whatsabi.ts line 815): the name is the non-empty
run of characters before the first `(`, the captured parameter segment runs
from there to the FIRST `)`, and the remainder is everything after it.
Returns `none` exactly when the regex does not match. -/
def jsFnSigMatch (s : String) : Option (String × String × String) :=
  let cs := s.data
  let nameChars := cs.takeWhile (· ≠ '(')
  if nameChars.isEmpty then none
  else
    match cs.dropWhile (· ≠ '(') with
    | [] => none
    | _ :: rest =>
      let inputChars := rest.takeWhile (· ≠ ')')
      match rest.dropWhile (· ≠ ')') with
      | [] => none
      | _ :: tail =>
        some (String.mk nameChars, String.mk inputChars, String.mk tail)

/-- The `(type, index) => {name: param<index>, type: type.trim()}` mapping used
when `processSignature` splits a comma-separated type list. -/
def numberedParams (base : String) (types : List String) : List Param :=
  types.enum.map (fun p => { name := base ++ toString p.1, type := jsTrim p.2 })

/-- JS `outputsStr.includes("returns")`. -/
def containsReturns (s : String) : Bool :=
  containsSub "returns".data s.data

/-- One attempt of the JS regex `/returns\s*\(([^)]*)\)/` at the head of the
character list: literal `returns`, optional whitespace, `(`, capture up to
the first `)`, which must be present. -/
def tryReturnsAt (cs : List Char) : Option (List Char) :=
  if ("returns".data).isPrefixOf cs then
    let after := (cs.drop 7).dropWhile (fun c => c.isWhitespace)
    match after with
    | '(' :: r =>
      if (r.dropWhile (· ≠ ')')).isEmpty then none
      else some (r.takeWhile (· ≠ ')'))
    | _ => none
  else none

/-- Left-to-right first-match search of the JS regex `/returns\s*\(([^)]*)\)/`
over the whole string (regex engines try every start position in order). -/
def returnsCapture : List Char → Option (List Char)
  | [] => none
  | c :: rest =>
    match tryReturnsAt (c :: rest) with
    | some cap => some cap
    | none => returnsCapture rest

/-- Embedding of `processSignature` (whatsabi.ts lines 814-864): parse a
candidate signature string with the anchored regex; on a match set the name,
split the captured parameter segment on every comma into `param<i>` inputs
(empty segment gives no inputs), and if the remainder is non-empty and
contains `returns`, parse the first `returns(...)` group the same way into
`output<i>` outputs and force `stateMutability` to `view`; otherwise set
outputs to `[]` and default a falsy `stateMutability` to `nonpayable`.
No selector is recomputed or compared at any point. -/
def processSignature (item : AbiItem) (signature : String) : AbiItem :=
  match jsFnSigMatch signature with
  | none => item
  | some (nm, inputsStr, outputsStr) =>
    let item1 := { item with name := some nm }
    let item2 :=
      if inputsStr ≠ "" then
        { item1 with inputs := some (numberedParams "param" (jsSplit ',' inputsStr)) }
      else
        { item1 with inputs := some [] }
    if outputsStr ≠ "" ∧ containsReturns outputsStr then
      match returnsCapture outputsStr.data with
      | some cap =>
        { item2 with
            outputs := some (numberedParams "output" (jsSplit ',' (String.mk cap)))
            stateMutability := some "view" }
      | none => item2
    else
      let item3 := { item2 with outputs := some ([] : List Param) }
      if strFalsy item3.stateMutability then
        { item3 with stateMutability := some "nonpayable" }
      else item3

/-- One hex digit (lowercase), as produced by JS `b.toString(16)`. -/
def hexDigit (n : Nat) : Char :=
  if n < 10 then Char.ofNat (48 + n) else Char.ofNat (87 + n)

/-- JS `b.toString(16).padStart(2, "0")` for a byte value. -/
def byteToHex (b : Nat) : String :=
  String.mk [hexDigit (b / 16 % 16), hexDigit (b % 16)]

/-- UTF-8 encoding of one character (the semantics of JS `TextEncoder`). -/
def utf8Encode (c : Char) : List Nat :=
  let n := c.toNat
  if n < 0x80 then [n]
  else if n < 0x800 then [0xC0 + n / 0x40, 0x80 + n % 0x40]
  else if n < 0x10000 then
    [0xE0 + n / 0x1000, 0x80 + (n / 0x40) % 0x40, 0x80 + n % 0x40]
  else
    [0xF0 + n / 0x40000, 0x80 + (n / 0x1000) % 0x40, 0x80 + (n / 0x40) % 0x40, 0x80 + n % 0x40]

/-- JS `new TextEncoder().encode(s)` as a byte list. -/
def utf8Bytes (s : String) : List Nat :=
  (s.data.map utf8Encode).flatten

/-- Embedding of the private `keccak256` of `WhatsABIWrapper` (whatsabi.ts
lines 1182-1195): despite its name it is NOT the keccak hash — the source
itself calls it "just a placeholder" — it merely hex-encodes the input bytes
and prepends `0x`. -/
def keccak256 (data : List Nat) : String :=
  "0x" ++ String.join (data.map byteToHex)

/-- Embedding of `getFunctionSignature` (whatsabi.ts lines 1163-1168):
`name(type1,type2,...)` built from the input types. -/
def getFunctionSignature (name : String) (inputs : List Param) : String :=
  name ++ "(" ++ String.intercalate "," (inputs.map Param.type) ++ ")"

/-- Embedding of `getFunctionSighash` (whatsabi.ts lines 1170-1180): the
first 10 characters (`0x` + 4 bytes) of the placeholder `keccak256` of the
UTF-8 bytes of the signature — i.e. `0x` followed by the hex of the
signature's first four bytes. -/
def getFunctionSighash (signature : String) : String :=
  String.mk ((keccak256 (utf8Bytes signature)).data.take 10)

/-- Outcome of one `signatureLookup.loadFunctions(selector)` attempt in
`enhanceAbiWithSignatures`: a list of signature strings, or a thrown
error/timeout (`err`, the `Promise.race` timeout path included). -/
inductive LookupResult
  | ok (sigs : List String)
  | err
deriving DecidableEq, Repr

/-- Outcome of the direct `4byte.directory` HTTP fallback in
`tryDirect4ByteApiLookup`: a thrown fetch error or timeout (`fail`), an HTTP
response with `ok = false` (`respNotOk`), or a JSON body whose `results` are
`(id, text_signature)` pairs. -/
inductive FourByteOutcome
  | fail
  | respNotOk
  | results (rs : List (Int × String))
deriving DecidableEq, Repr

/-- Stable insertion of one `(id, text_signature)` pair into a list sorted
by descending `id` (the JS comparator `(a, b) => b.id - a.id`). -/
def insertDescById (x : Int × String) : List (Int × String) → List (Int × String)
  | [] => [x]
  | y :: ys => if x.1 ≥ y.1 then x :: y :: ys else y :: insertDescById x ys

/-- JS `[...results].sort((a, b) => b.id - a.id)` (stable, descending id). -/
def sortByIdDesc (rs : List (Int × String)) : List (Int × String) :=
  rs.foldr insertDescById []

/-- Embedding of `tryDirect4ByteApiLookup` (whatsabi.ts lines 870-932) as a
function of the HTTP outcome. With results present, the most popular
(highest id) `text_signature` is processed when non-empty; when the response
is not ok or has no results, a nameless item gets the placeholder
`func_<selector-without-0x>` with inputs/outputs `[]` and `nonpayable`; when
the fetch itself fails (catch path), a nameless item gets the placeholder
with its existing inputs/outputs/mutability kept via `|| []` defaults. -/
def tryDirect4ByteApiLookup (item : AbiItem) (outcome : FourByteOutcome) : AbiItem :=
  let selStr := item.selector.getD ""
  let notFound :=
    if strFalsy item.name then
      { item with
          name := some ("func_" ++ dropTwo selStr)
          inputs := some ([] : List Param)
          outputs := some ([] : List Param)
          stateMutability := some "nonpayable" }
    else item
  let failPath :=
    if strFalsy item.name then
      { item with
          name := some ("func_" ++ dropTwo selStr)
          inputs := some (item.inputs.getD [])
          outputs := some (item.outputs.getD [])
          stateMutability := some (jsOrStr item.stateMutability "nonpayable") }
    else item
  match outcome with
  | .fail => failPath
  | .respNotOk => notFound
  | .results rs =>
    match sortByIdDesc rs with
    | [] => notFound
    | (_, sigText) :: _ =>
      if sigText ≠ "" then processSignature item sigText else notFound

/-- The guard `item.type === "function" && item.selector` of the per-item
loop in `enhanceAbiWithSignatures` (whatsabi.ts line 761). -/
def enhGuard (item : AbiItem) : Bool :=
  item.type = "function" && !(strFalsy item.selector)

/-- Per-item body of `enhanceAbiWithSignatures` (whatsabi.ts lines 760-801)
as a function of the two lookup outcomes: a non-empty primary result is
processed directly; an empty primary result or a thrown/timed-out primary
lookup falls back to the direct 4byte API (whose own failures are also
caught, so the item is always returned, never a thrown error). -/
def enhanceAbiItem (item : AbiItem) (primary : LookupResult)
    (fourByte : FourByteOutcome) : AbiItem :=
  if enhGuard item then
    match primary with
    | .ok (s :: _) => processSignature item s
    | .ok [] => tryDirect4ByteApiLookup item fourByte
    | .err => tryDirect4ByteApiLookup item fourByte
  else item

/-- One fragment of the fixed well-known-interface table (all fields are
present and concrete in the source literal). -/
structure FallbackFragment where
  type : String
  name : String
  inputs : List Param
  outputs : List Param
  stateMutability : String
deriving DecidableEq, Repr

/-- Transcription of the `FALLBACK_ERC20_ABI` literal (whatsabi.ts lines
53-130). -/
def FALLBACK_ERC20_ABI : List FallbackFragment :=
  [ { type := "function", name := "name", inputs := [],
      outputs := [{ name := "", type := "string" }], stateMutability := "view" },
    { type := "function", name := "symbol", inputs := [],
      outputs := [{ name := "", type := "string" }], stateMutability := "view" },
    { type := "function", name := "decimals", inputs := [],
      outputs := [{ name := "", type := "uint8" }], stateMutability := "view" },
    { type := "function", name := "totalSupply", inputs := [],
      outputs := [{ name := "", type := "uint256" }], stateMutability := "view" },
    { type := "function", name := "balanceOf",
      inputs := [{ name := "owner", type := "address" }],
      outputs := [{ name := "", type := "uint256" }], stateMutability := "view" },
    { type := "function", name := "allowance",
      inputs := [{ name := "owner", type := "address" }, { name := "spender", type := "address" }],
      outputs := [{ name := "", type := "uint256" }], stateMutability := "view" },
    { type := "function", name := "approve",
      inputs := [{ name := "spender", type := "address" }, { name := "amount", type := "uint256" }],
      outputs := [{ name := "", type := "bool" }], stateMutability := "nonpayable" },
    { type := "function", name := "transfer",
      inputs := [{ name := "to", type := "address" }, { name := "amount", type := "uint256" }],
      outputs := [{ name := "", type := "bool" }], stateMutability := "nonpayable" },
    { type := "function", name := "transferFrom",
      inputs := [{ name := "from", type := "address" }, { name := "to", type := "address" },
                 { name := "amount", type := "uint256" }],
      outputs := [{ name := "", type := "bool" }], stateMutability := "nonpayable" } ]

/-- JS `!func.outputs || func.outputs.length === 0` (missing or empty). -/
def outputsMissing : Option (List Param) → Bool
  | none => true
  | some l => l.isEmpty

/-- The `FALLBACK_ERC20_ABI.find(item => item.type === "function" && item.name
=== func.name)` lookup of `processABI` (an absent name matches nothing, since
`undefined` is not strictly equal to any string). -/
def erc20Lookup (nm : Option String) : Option FallbackFragment :=
  FALLBACK_ERC20_ABI.find? (fun f => f.type = "function" && nm = some f.name)

/-- The `inputsMatch` test of `processABI` (whatsabi.ts lines 1266-1272):
true when the entry has NO `inputs` field at all (`!func.inputs`), or when
lengths agree and the types agree pointwise. -/
def fragmentInputsMatch (inputs : Option (List Param)) (frag : FallbackFragment) : Bool :=
  match inputs with
  | none => true
  | some l =>
    l.length = frag.inputs.length &&
      (l.zip frag.inputs).all (fun p => p.1.type = p.2.type)

/-- The output-backfill mutation performed by `processABI` on each function
entry (whatsabi.ts lines 1259-1279): only entries with missing/empty outputs
whose name hits the fallback table and whose inputs pass `fragmentInputsMatch`
get the fragment's outputs and mutability copied in. -/
def backfillOutputs (func : AbiItem) : AbiItem :=
  if outputsMissing func.outputs then
    match erc20Lookup func.name with
    | some frag =>
      if fragmentInputsMatch func.inputs frag then
        { func with outputs := some frag.outputs, stateMutability := some frag.stateMutability }
      else func
    | none => func
  else func

/-- The `ContractFunction` record shape returned by `processABI`
(whatsabi.ts lines 37-50); `name` is optional because the JS record simply
copies a possibly-undefined `func.name`. -/
structure ContractFunction where
  name : Option String
  signature : String
  sighash : Option String
  inputs : List Param
  outputs : List Param
  stateMutability : String
deriving DecidableEq, Repr

/-- JS string interpolation of a possibly-undefined value. -/
def jsShow : Option String → String
  | none => "undefined"
  | some s => s

/-- Record construction of `processABI` (whatsabi.ts lines 1281-1298): the
signature falls back to `name(types)` built by template literal, inputs get
the default name `param<type>` (the source interpolates the TYPE here, not
the index), outputs get `output<index>`, and mutability defaults to
`nonpayable`. -/
def toContractRecord (func : AbiItem) : ContractFunction :=
  { name := func.name
    signature :=
      jsOrStr func.sig
        (jsShow func.name ++ "(" ++
          String.intercalate "," ((func.inputs.getD []).map Param.type) ++ ")")
    sighash := func.selector
    inputs := (func.inputs.getD []).map
      (fun input => { name := if input.name = "" then "param" ++ input.type else input.name,
                      type := input.type })
    outputs := (func.outputs.getD []).enum.map
      (fun p => { name := if p.2.name = "" then "output" ++ toString p.1 else p.2.name,
                  type := p.2.type })
    stateMutability := jsOrStr func.stateMutability "nonpayable" }

/-- Embedding of `processABI` (whatsabi.ts lines 1254-1300): filter to
functions, backfill missing outputs from the ERC-20 table, and build the
`ContractFunction` records. -/
def processABI (abi : List AbiItem) : List ContractFunction :=
  (abi.filter (fun item => item.type = "function")).map
    (fun func => toContractRecord (backfillOutputs func))

/-- Hex-digit test of the viem address regex. -/
def isHexChar (c : Char) : Bool :=
  c.isDigit || ('a' ≤ c && c ≤ 'f') || ('A' ≤ c && c ≤ 'F')

/-- Modelled from the viem library (external dependency): `isAddress`
accepts exactly the strings matching `^0x[0-9a-fA-F]{40}$` (viem
additionally rejects mixed-case strings with a bad EIP-55 checksum; that
checksum clause is not modelled — every address in this development is
single-case, where the two notions agree). -/
def isAddress (s : String) : Bool :=
  s.data.length = 42 && s.data.take 2 = ['0', 'x'] && (s.data.drop 2).all isHexChar

/-- Result of one RPC read issued through the wrapped provider: the returned
string, or a thrown error (network failure). -/
inductive ReadResult
  | ok (v : String)
  | err
deriving DecidableEq, Repr

/-- One outbound network request of the pipeline, recorded in order. -/
inductive NetCall
  | chainIdCall
  | ethGetCode (addr : String)
  | storage (addr slot : String)
  | sigLookup (sel : String)
  | fourByte (sel : String)
  | autoloadCall (addr : String)
deriving DecidableEq, Repr

/-- The `WhatsABIResult` record (whatsabi.ts lines 22-28); `proxy` holds the
implementation address of the `{implementation}` object when present. -/
structure WhatsABIResult where
  abi : List AbiItem
  address : String
  selectors : Option (List String)
  proxy : Option String
deriving DecidableEq, Repr

/-- The network-facing capabilities consumed by the wrapper, as response
functions: chain id, `getCode` results (`none` models an empty/absent
response), per-address storage reads and code reads issued through the
provider `request` path, the two signature-source outcomes per selector, and
the results of the external `@shazow/whatsabi` library functions
(`selectorsFromBytecode`, `abiFromBytecode`, `autoload`), which are modelled
as oracles at their call boundary. -/
structure Env where
  clientChainId : Int
  code : String → Option String
  storageAt : String → String → ReadResult
  codeAt : String → ReadResult
  sigLookup : String → LookupResult
  fourByte : String → FourByteOutcome
  selectorsFromBytecode : String → List String
  abiFromBytecode : String → List AbiItem
  autoload : String → Except Unit (List AbiItem × String)

/-- Per-item step of `enhanceAbiWithSignatures` together with the network
requests it issues: guarded items always issue the primary lookup, and also
the direct 4byte request when the primary result is empty or thrown. -/
def enhanceOne (env : Env) (item : AbiItem) : AbiItem × List NetCall :=
  if enhGuard item then
    let sel := item.selector.getD ""
    (enhanceAbiItem item (env.sigLookup sel) (env.fourByte sel),
      match env.sigLookup sel with
      | .ok (_ :: _) => [.sigLookup sel]
      | .ok [] => [.sigLookup sel, .fourByte sel]
      | .err => [.sigLookup sel, .fourByte sel])
  else (item, [])

/-- Embedding of `enhanceAbiWithSignatures` (whatsabi.ts lines 752-809):
every item is processed independently; the function is total (all lookup
failures are caught inside), so an ABI list is always returned. -/
def enhanceAbiWithSignatures (env : Env) (abi : List AbiItem) :
    List AbiItem × List NetCall :=
  let pairs := abi.map (enhanceOne env)
  (pairs.map Prod.fst, (pairs.map Prod.snd).flatten)

/-- The fixed implementation-slot list of `manuallyCheckForProxy`
(whatsabi.ts lines 662-667), in source order: EIP-1967 logic slot,
OpenZeppelin transparent-proxy slot, EIP-1822 (UUPS) slot, slot 0. -/
def commonImplementationSlots : List String :=
  [ "0x360894a13ba1a3210667c828492db98dca3e2076cc3735a920a3ca505d382bbc",
    "0xa3f0ad74e5423aebfd80d3ef4346578335a9a72aeaee59ff6cb3582b35133d50",
    "0x7050c9e0f4ca769c69bd3a8ef740bc37934f8e2c036e5a723fd8ee048ed3f8c3",
    "0x0000000000000000000000000000000000000000000000000000000000000000" ]

/-- The all-zero 32-byte storage word literal compared against in
`manuallyCheckForProxy` (whatsabi.ts line 707). -/
def zeroWord : String :=
  "0x0000000000000000000000000000000000000000000000000000000000000000"

/-- The canonical proxy-management selectors of the selector-name heuristic
(whatsabi.ts lines 672-681). -/
def proxyMgmtSelectors : List String :=
  [ "0x3659cfe6", "0x4f1ef286", "0x8f283970", "0xf851a440",
    "0x5c60da1b", "0x5a8b35a2", "0xbb913f41", "0x7050c9e0" ]

/-- The `isLikelyProxy` heuristic (whatsabi.ts lines 670-682); the source
computes it and logs it but never lets it influence the returned value. -/
def isLikelyProxy (selectors : List String) : Bool :=
  selectors.any (fun sel => proxyMgmtSelectors.contains sel)

/-- Candidate extraction from a storage word (whatsabi.ts lines 711-712):
`"0x" + storage.slice(storage.length - 40)`, the low 20 bytes. -/
def extractCandidate (storage : String) : String :=
  "0x" ++ jsSliceFrom storage ((storage.length : Int) - 40)

/-- What one storage slot yields in `manuallyCheckForProxy`: `some impl`
exactly when the read succeeds with a truthy, non-`0x`, non-zero word whose
low-20-byte candidate is a well-formed address with non-empty code. -/
def slotCandidate (storAt codeAt : String → ReadResult) (slot : String) : Option String :=
  match storAt slot with
  | .err => none
  | .ok storage =>
    if storage ≠ "" ∧ storage ≠ "0x" ∧ storage ≠ zeroWord then
      let impl := extractCandidate storage
      if isAddress impl then
        match codeAt impl with
        | .err => none
        | .ok c => if c ≠ "" ∧ c ≠ "0x" then some impl else none
      else none
    else none

/-- The slot loop of `manuallyCheckForProxy` (whatsabi.ts lines 695-738)
with its per-slot `try`/`catch`: every thrown read is swallowed and probing
continues with the remaining slots; the first validated candidate returns. -/
def probeSlots (storAt codeAt : String → ReadResult) (addr : String) :
    List String → Option String × List NetCall
  | [] => (none, [])
  | slot :: rest =>
    match storAt slot with
    | .err =>
      let r := probeSlots storAt codeAt addr rest
      (r.1, NetCall.storage addr slot :: r.2)
    | .ok storage =>
      if storage ≠ "" ∧ storage ≠ "0x" ∧ storage ≠ zeroWord then
        let impl := extractCandidate storage
        if isAddress impl then
          match codeAt impl with
          | .err =>
            let r := probeSlots storAt codeAt addr rest
            (r.1, NetCall.storage addr slot :: NetCall.ethGetCode impl :: r.2)
          | .ok c =>
            if c ≠ "" ∧ c ≠ "0x" then
              (some impl, [NetCall.storage addr slot, NetCall.ethGetCode impl])
            else
              let r := probeSlots storAt codeAt addr rest
              (r.1, NetCall.storage addr slot :: NetCall.ethGetCode impl :: r.2)
        else
          let r := probeSlots storAt codeAt addr rest
          (r.1, NetCall.storage addr slot :: r.2)
      else
        let r := probeSlots storAt codeAt addr rest
        (r.1, NetCall.storage addr slot :: r.2)

/-- Embedding of `manuallyCheckForProxy` (whatsabi.ts lines 653-746): the
selector heuristic is computed (for logging) but the result depends only on
the slot probes; total failure returns `none`, not an error. -/
def manuallyCheckForProxy (storAt codeAt : String → ReadResult)
    (contractAddress : String) (selectors : List String) :
    Option String × List NetCall :=
  let _likely := isLikelyProxy selectors
  probeSlots storAt codeAt contractAddress commonImplementationSlots

/-- The manual (non-autoload) branch of `parseContract` (whatsabi.ts lines
515-594), given the already-fetched bytecode: extract selectors and a base
ABI (external library oracles), enhance with signatures, run the manual
proxy check; on a found implementation, fetch its code and — when non-empty
— CONCATENATE the enhanced proxy ABI with the enhanced implementation ABI
(`[...enhancedAbi, ...enhancedImplAbi]`, no deduplication), surfacing the
implementation address; implementation-side fetch failures fall back to the
proxy ABI alone. -/
def manualBranch (env : Env) (addr : String) (code : String) :
    WhatsABIResult × List NetCall :=
  let selectors := env.selectorsFromBytecode code
  let baseAbi := env.abiFromBytecode code
  let enh := enhanceAbiWithSignatures env baseAbi
  let probe := manuallyCheckForProxy (env.storageAt addr) env.codeAt addr selectors
  match probe.1 with
  | none =>
    ({ abi := enh.1, address := addr, selectors := some selectors, proxy := none },
      enh.2 ++ probe.2)
  | some impl =>
    match env.code impl with
    | none =>
      ({ abi := enh.1, address := impl, selectors := some selectors, proxy := some impl },
        enh.2 ++ probe.2 ++ [.ethGetCode impl])
    | some implCode =>
      if implCode ≠ "" ∧ implCode ≠ "0x" then
        let implEnh := enhanceAbiWithSignatures env (env.abiFromBytecode implCode)
        ({ abi := enh.1 ++ implEnh.1, address := impl, selectors := some selectors,
           proxy := some impl },
          enh.2 ++ probe.2 ++ [.ethGetCode impl] ++ implEnh.2)
      else
        ({ abi := enh.1, address := impl, selectors := some selectors, proxy := some impl },
          enh.2 ++ probe.2 ++ [.ethGetCode impl])

/-- The in-memory state of a `WhatsABIWrapper` instance: current chain id
and the `abiCache` map (association list with `Map.set` overwrite
semantics). -/
structure WrapperState where
  currentChainId : Int
  abiCache : List (String × WhatsABIResult)
deriving DecidableEq, Repr

/-- JS `Map.prototype.get`. -/
def cacheGet (c : List (String × WhatsABIResult)) (k : String) : Option WhatsABIResult :=
  (c.find? (fun p => p.1 = k)).map Prod.snd

/-- JS `Map.prototype.set` (overwrite in place, or append). -/
def cacheSet (c : List (String × WhatsABIResult)) (k : String) (v : WhatsABIResult) :
    List (String × WhatsABIResult) :=
  if (c.find? (fun p => p.1 = k)).isSome then
    c.map (fun p => if p.1 = k then (k, v) else p)
  else c ++ [(k, v)]

/-- The address guard at the top of `parseContract` (whatsabi.ts lines
377-382): only a falsy string, the literal `0x`, or the zero address are
rejected — NOT general malformedness. -/
def parseContractAddrGuard (addr : String) : Bool :=
  addr = "" || addr = "0x" || addr = "0x0000000000000000000000000000000000000000"

/-- `shouldEnableProxyResolution` (whatsabi.ts lines 357-364): every chain
except Arbitrum Sepolia (421614) uses the standard autoload path. -/
def shouldEnableProxyResolution (chainId : Int) : Bool :=
  !([ (421614 : Int) ].contains chainId)

/-- The cache key `${contractAddress.toLowerCase()}-${this.currentChainId}`
(whatsabi.ts lines 392-394). -/
def parseCacheKey (addr : String) (chainId : Int) : String :=
  jsToLower addr ++ "-" ++ toString chainId

/-- The cache-consulting core of `parseContract`, entered after the address
guard and the `getChainId` chain check: a cache hit returns immediately
(the `getChainId` probe is the only request recorded); a miss fetches the
bytecode and runs the autoload or manual path, caching the result. -/
def parseContractResolve (env : Env) (st1 : WrapperState) (addr : String) :
    Except String WhatsABIResult × WrapperState × List NetCall :=
  let cacheKey := parseCacheKey addr st1.currentChainId
  match cacheGet st1.abiCache cacheKey with
    | some r => (.ok r, st1, [.chainIdCall])
    | none =>
      match env.code addr with
      | none => (.error "No bytecode found for contract", st1, [.chainIdCall, .ethGetCode addr])
      | some code =>
        if code = "" ∨ code = "0x" then
          (.error "No bytecode found for contract", st1, [.chainIdCall, .ethGetCode addr])
        else if shouldEnableProxyResolution st1.currentChainId then
          match env.autoload addr with
          | .ok (abi, raddr) =>
            let r : WhatsABIResult :=
              { abi := abi, address := raddr, selectors := none, proxy := none }
            (.ok r, { st1 with abiCache := cacheSet st1.abiCache cacheKey r },
              [.chainIdCall, .ethGetCode addr, .autoloadCall addr])
          | .error _ =>
            let selectors := env.selectorsFromBytecode code
            let enh := enhanceAbiWithSignatures env (env.abiFromBytecode code)
            let r : WhatsABIResult :=
              { abi := enh.1, address := addr, selectors := some selectors, proxy := none }
            (.ok r, { st1 with abiCache := cacheSet st1.abiCache cacheKey r },
              [.chainIdCall, .ethGetCode addr, .autoloadCall addr] ++ enh.2)
        else
          let mr := manualBranch env addr code
          (.ok mr.1, { st1 with abiCache := cacheSet st1.abiCache cacheKey mr.1 },
            [.chainIdCall, .ethGetCode addr] ++ mr.2)

/-- Embedding of `parseContract` (whatsabi.ts lines 369-647) over the
explicit wrapper state, returning the result (or thrown error message), the
new state, and the ordered network requests. Every call — including one
answered from the cache — first issues `getChainId()` on the public client;
a chain-id change runs `setChainId`, which CLEARS the cache; then the cache
is consulted (`parseContractResolve`); on a miss the bytecode is fetched
and either the autoload path (with its bytecode-analysis fallback) or the
manual path for problematic chains runs, and the result is cached under
`parseCacheKey` before returning. -/
def parseContract (env : Env) (st : WrapperState) (addr : String) :
    Except String WhatsABIResult × WrapperState × List NetCall :=
  if parseContractAddrGuard addr then
    (.error "Invalid contract address", st, [])
  else
    parseContractResolve env
      (if env.clientChainId ≠ st.currentChainId then
        { currentChainId := env.clientChainId, abiCache := [] }
      else st) addr

/-- Embedding of `getContractFunctions` (whatsabi.ts lines 1200-1249). The
address is validated with viem's `isAddress` BEFORE any network request;
`getAddr` is viem's `getAddress` checksum formatter (external library,
passed as an oracle). -/
def getContractFunctions (env : Env) (getAddr : String → String)
    (st : WrapperState) (addr : String) :
    Except String (List ContractFunction) × WrapperState × List NetCall :=
  if addr = "" || !(isAddress addr) then
    (.error ("Invalid address: " ++ addr), st, [])
  else
    let formatted := getAddr addr
    match env.code formatted with
    | none => (.error "No contract found", st, [.ethGetCode formatted])
    | some bytecode =>
      if bytecode = "" ∨ bytecode = "0x" then
        (.error "No contract found", st, [.ethGetCode formatted])
      else
        match parseContract env st formatted with
        | (.ok r, st2, t) => (.ok (processABI r.abi), st2, .ethGetCode formatted :: t)
        | (.error e, st2, t) => (.error e, st2, .ethGetCode formatted :: t)

/-- A persisted cache record of the Dexie `cachedABIs` table (the browser
persistence layer, `src/unnamed/part_002`); `functions` holds the
JSON-serialized function list as an opaque string (`JSON.stringify` /
`JSON.parse` are abstracted at the boundary). -/
structure CachedABIRecord where
  id : Nat
  address : String
  chainId : Int
  abi : String
  functions : String
  timestamp : Int
  verified : Bool
deriving DecidableEq, Repr

/-- 7 days in milliseconds, the freshness window of `getCachedContractABI`. -/
def weekMs : Int := 7 * 24 * 60 * 60 * 1000

/-- The `where("[address+chainId]").equals([normalizedAddress, chainId]).first()`
lookup (address compared after lowercasing). -/
def findCachedRecord (db : List CachedABIRecord) (address : String) (chainId : Int) :
    Option CachedABIRecord :=
  db.find? (fun r => r.address = jsToLower address && r.chainId = chainId)

/-- Embedding of `getCachedContractABI` (part_002 lines 370-418): a record
found for the lowercased address and chain id is returned exactly when
`timestamp > now - 7 days` or `verified` is set; otherwise (stale and
unverified, or no record) the lookup yields `null`. -/
def getCachedContractABI (db : List CachedABIRecord) (address : String)
    (chainId : Int) (now : Int) : Option (String × String) :=
  match findCachedRecord db address chainId with
  | none => none
  | some r =>
    if r.timestamp > now - weekMs ∨ r.verified then some (r.abi, r.functions)
    else none

/-- Embedding of `cacheContractABI` (part_002 lines 322-368): update the
existing record for the lowercased address and chain id in place — keeping
the verified flag with `verified || existingRecord.verified` — or add a new
record (with the next fresh primary key `nextId`). -/
def cacheContractABI (db : List CachedABIRecord) (nextId : Nat) (address : String)
    (chainId : Int) (abi functionsStr : String) (now : Int) (verified : Bool) :
    List CachedABIRecord :=
  match db.find? (fun r => r.address = jsToLower address && r.chainId = chainId) with
  | some r =>
    db.map (fun q =>
      if q.id = r.id then
        { q with abi := abi, functions := functionsStr, timestamp := now,
                 verified := verified || r.verified }
      else q)
  | none =>
    db ++ [{ id := nextId, address := jsToLower address, chainId := chainId, abi := abi,
             functions := functionsStr, timestamp := now, verified := verified }]

lemma find?_append_of_left {α} (p : α → Bool) (l₁ l₂ : List α) (b : α)
    (h : l₁.find? p = some b) : (l₁ ++ l₂).find? p = some b := by
  induction l₁ with
  | nil => simp [List.find?] at h
  | cons a l ih =>
    rw [List.cons_append]
    by_cases hp : p a
    · rw [List.find?_cons_of_pos _ hp] at h
      rw [List.find?_cons_of_pos _ hp]
      exact h
    · rw [List.find?_cons_of_neg _ (by simpa using hp)] at h
      rw [List.find?_cons_of_neg _ (by simpa using hp)]
      exact ih h

lemma find?_append_of_none {α} (p : α → Bool) (l₁ l₂ : List α)
    (h : l₁.find? p = none) : (l₁ ++ l₂).find? p = l₂.find? p := by
  induction l₁ with
  | nil => simp
  | cons a l ih =>
    rw [List.cons_append]
    by_cases hp : p a
    · rw [List.find?_cons_of_pos _ hp] at h; cases h
    · rw [List.find?_cons_of_neg _ (by simpa using hp)] at h
      rw [List.find?_cons_of_neg _ (by simpa using hp)]
      exact ih h

lemma cacheGet_overwrite (c : List (String × WhatsABIResult)) (k : String)
    (v : WhatsABIResult) (h : (c.find? (fun p => p.1 = k)).isSome) :
    cacheGet (c.map (fun p => if p.1 = k then (k, v) else p)) k = some v := by
  induction c with
  | nil => simp [List.find?] at h
  | cons a l ih =>
    by_cases hk : a.1 = k
    · simp only [List.map_cons, if_pos hk]
      unfold cacheGet
      rw [List.find?_cons_of_pos _ (by simp)]
      rfl
    · simp only [List.map_cons, if_neg hk]
      have h' : (l.find? (fun p => p.1 = k)).isSome := by
        rw [List.find?_cons_of_neg _ (by simpa using hk)] at h
        exact h
      unfold cacheGet at ih ⊢
      rw [List.find?_cons_of_neg _ (by simpa using hk)]
      exact ih h'

lemma cacheGet_set (c : List (String × WhatsABIResult)) (k : String)
    (v : WhatsABIResult) : cacheGet (cacheSet c k v) k = some v := by
  unfold cacheSet
  by_cases h : (c.find? (fun p => p.1 = k)).isSome
  · rw [if_pos h]; exact cacheGet_overwrite c k v h
  · rw [if_neg h]
    unfold cacheGet
    rw [find?_append_of_none _ _ _ (Option.not_isSome_iff_eq_none.mp h)]
    rw [List.find?_cons_of_pos _ (by simp)]
    rfl

/-- C9 (confirmed): a persisted cache record is returned on lookup exactly
when it exists for the lowercased address and chain id and either is
verified or is within the 7-day freshness window; an unverified record whose
age reaches 7 days is treated as absent, while a verified record is returned
regardless of age. -/
theorem getCachedContractABI_freshness (db : List CachedABIRecord)
    (address : String) (chainId now : Int) :
    ((getCachedContractABI db address chainId now).isSome ↔
      ∃ r, findCachedRecord db address chainId = some r ∧
        (r.verified = true ∨ now - r.timestamp < weekMs))
    ∧ (∀ r, findCachedRecord db address chainId = some r →
        (r.verified = true →
          getCachedContractABI db address chainId now = some (r.abi, r.functions))
        ∧ (r.verified = false → weekMs ≤ now - r.timestamp →
          getCachedContractABI db address chainId now = none)
        ∧ (now - r.timestamp < weekMs →
          getCachedContractABI db address chainId now = some (r.abi, r.functions))) := by
  cases hf : findCachedRecord db address chainId with
  | none =>
    constructor
    · simp only [getCachedContractABI, hf, Option.isSome_none]
      constructor
      · intro h; cases h
      · rintro ⟨r, hr, -⟩; cases hr
    · intro r hr; cases hr
  | some r =>
    have hg : getCachedContractABI db address chainId now =
        (if r.timestamp > now - weekMs ∨ r.verified = true then
          some (r.abi, r.functions) else none) := by
      unfold getCachedContractABI
      rw [hf]
    constructor
    · rw [hg]
      by_cases hv : r.verified = true
      · simp [hv]
      · by_cases ht : r.timestamp > now - weekMs
        · simp only [if_pos (Or.inl ht), Option.isSome_some, true_iff]
          exact ⟨r, rfl, Or.inr (by omega)⟩
        · rw [if_neg (by tauto)]
          simp only [Option.isSome_none, Bool.false_eq_true, false_iff]
          rintro ⟨r', hr', hcond⟩
          injection hr' with hr'
          subst hr'
          rcases hcond with h1 | h2
          · exact hv h1
          · omega
    · intro r' hr'
      injection hr' with hr'
      subst hr'
      rw [hg]
      refine ⟨fun hv => by rw [if_pos (Or.inr hv)], fun hv hage => ?_, fun hage => ?_⟩
      · rw [if_neg]
        rintro (h1 | h2)
        · omega
        · rw [hv] at h2; cases h2
      · rw [if_pos (Or.inl (by omega))]

/-- The concrete record used to witness the C9 theorem. -/
def recC9 : CachedABIRecord :=
  { id := 1, address := "0xabc", chainId := 5, abi := "[]", functions := "[]",
    timestamp := 0, verified := true }

/-- C9 witness: a stale (age 10 weeks) but verified record is still
returned, by the verified clause of the theorem. -/
theorem getCachedContractABI_freshness_witness :
    getCachedContractABI [recC9] "0xAbC" 5 (10 * weekMs) = some ("[]", "[]") :=
  ((getCachedContractABI_freshness [recC9] "0xAbC" 5 (10 * weekMs)).2
    recC9 (by decide)).1 rfl

/-- C10 (confirmed): updating an existing persisted record stores
`verified || existingRecord.verified`, so the verified flag is monotone —
once a record for a key is verified, no later store for that key can clear
it. -/
theorem cacheContractABI_verified_monotone (db : List CachedABIRecord)
    (nextId : Nat) (address : String) (chainId : Int) (abi fs : String)
    (now : Int) (v : Bool) (r0 : CachedABIRecord)
    (hfind : db.find? (fun r => r.address = jsToLower address && r.chainId = chainId) =
      some r0) :
    (∀ q ∈ cacheContractABI db nextId address chainId abi fs now v,
        q.id = r0.id → q.verified = (v || r0.verified))
    ∧ (r0.verified = true →
        ∀ q ∈ cacheContractABI db nextId address chainId abi fs now v,
          q.id = r0.id → q.verified = true) := by
  have hmain : ∀ q ∈ cacheContractABI db nextId address chainId abi fs now v,
      q.id = r0.id → q.verified = (v || r0.verified) := by
    intro q hq hid
    unfold cacheContractABI at hq
    rw [hfind] at hq
    obtain ⟨p, hp, hpq⟩ := List.mem_map.mp hq
    by_cases hpid : p.id = r0.id
    · rw [if_pos hpid] at hpq; subst hpq; rfl
    · rw [if_neg hpid] at hpq; subst hpq; exact absurd hid hpid
  exact ⟨hmain, fun hv q hq hid => by rw [hmain q hq hid, hv, Bool.or_true]⟩

/-- The concrete record used to witness the C10 theorem. -/
def recC10 : CachedABIRecord :=
  { id := 7, address := "0xdef", chainId := 1, abi := "old", functions := "old",
    timestamp := 3, verified := true }

/-- C10 witness: storing an unverified update over a verified record keeps
`verified = true` on the stored record, by the monotonicity clause of the
theorem. -/
theorem cacheContractABI_verified_monotone_witness :
    ((cacheContractABI [recC10] 8 "0xDEF" 1 "new" "new" 9 false).headD recC10).verified =
      true := by
  have H := (cacheContractABI_verified_monotone [recC10] 8 "0xDEF" 1 "new" "new" 9 false
    recC10 (by decide)).2 rfl
  exact H _ (by decide) (by decide)

lemma dropTwo_0x (digits : String) : dropTwo ("0x" ++ digits) = digits := by
  cases digits with
  | mk l => rfl

lemma strFalsy_0x (digits : String) : strFalsy (some ("0x" ++ digits)) = false := by
  cases digits with
  | mk l =>
    simp only [strFalsy, decide_eq_false_iff_not]
    intro h
    have := congrArg String.data h
    simp [String.data_append] at this

/-- C3 (confirmed): for a skeleton function entry (no name, empty or absent
inputs/outputs, default mutability) whose selector is matched by NO
signature source — the primary lookup returning nothing or
throwing/timing out, and the direct 4byte fallback failing, returning a
non-ok response, or returning no results — enhancement still returns an
entry (it is a total function, nothing is thrown) whose name is exactly
`func_` followed by the selector's hex digits without the `0x` prefix, with
empty inputs, empty outputs, and `nonpayable` mutability. -/
theorem unresolved_selector_gets_placeholder (digits : String) (item : AbiItem)
    (htype : item.type = "function")
    (hsel : item.selector = some ("0x" ++ digits))
    (hname : item.name = none)
    (hin : item.inputs = none ∨ item.inputs = some [])
    (hout : item.outputs = none ∨ item.outputs = some [])
    (hsm : item.stateMutability = none ∨ item.stateMutability = some "nonpayable")
    (primary : LookupResult) (fb : FourByteOutcome)
    (hp : primary = .err ∨ primary = .ok [])
    (hf : fb = .fail ∨ fb = .respNotOk ∨ fb = .results []) :
    (enhanceAbiItem item primary fb).name = some ("func_" ++ digits)
    ∧ (enhanceAbiItem item primary fb).inputs = some []
    ∧ (enhanceAbiItem item primary fb).outputs = some []
    ∧ (enhanceAbiItem item primary fb).stateMutability = some "nonpayable" := by
  have hguard : enhGuard item = true := by
    simp [enhGuard, htype, hsel, strFalsy_0x]
  rcases hp with hp | hp <;> subst hp <;>
    rcases hf with hf | hf | hf <;> subst hf <;>
    rcases hin with hin | hin <;>
    rcases hout with hout | hout <;>
    rcases hsm with hsm | hsm <;>
    simp [enhanceAbiItem, hguard, tryDirect4ByteApiLookup, hname, hsel, hin, hout, hsm,
      dropTwo_0x, sortByIdDesc, jsOrStr, strFalsy]

/-- The skeleton entry used to witness the C3 theorem. -/
def skeletonC3 : AbiItem :=
  { type := "function", selector := some "0xdeadbeef", name := none, sig := none,
    inputs := none, outputs := none, stateMutability := none }

/-- C3 witness: a timed-out primary lookup plus a failed 4byte fetch leaves
the placeholder entry `func_deadbeef`, by the theorem. -/
theorem unresolved_selector_gets_placeholder_witness :
    (enhanceAbiItem skeletonC3 .err .fail).name = some ("func_" ++ "deadbeef")
    ∧ (enhanceAbiItem skeletonC3 .err .fail).inputs = some []
    ∧ (enhanceAbiItem skeletonC3 .err .fail).outputs = some []
    ∧ (enhanceAbiItem skeletonC3 .err .fail).stateMutability = some "nonpayable" :=
  unresolved_selector_gets_placeholder "deadbeef" skeletonC3 rfl (by decide) rfl
    (Or.inl rfl) (Or.inl rfl) (Or.inl rfl) .err .fail (Or.inl rfl) (Or.inl rfl)

lemma probeSlots_fst (storAt codeAt : String → ReadResult) (addr : String)
    (slots : List String) :
    (probeSlots storAt codeAt addr slots).1 =
      slots.findSome? (slotCandidate storAt codeAt) := by
  induction slots with
  | nil => rfl
  | cons slot rest ih =>
    cases hs : storAt slot with
    | err =>
      have hsc : slotCandidate storAt codeAt slot = none := by
        simp [slotCandidate, hs]
      simp [probeSlots, hs, hsc, List.findSome?_cons, ih]
    | ok storage =>
      by_cases h1 : storage ≠ "" ∧ storage ≠ "0x" ∧ storage ≠ zeroWord
      · by_cases h2 : isAddress (extractCandidate storage) = true
        · cases hc : codeAt (extractCandidate storage) with
          | err =>
            have hsc : slotCandidate storAt codeAt slot = none := by
              simp [slotCandidate, hs, h1, h2, hc]
            simp [probeSlots, hs, h1, h2, hc, hsc, List.findSome?_cons, ih]
          | ok c =>
            by_cases h3 : c ≠ "" ∧ c ≠ "0x"
            · have hsc : slotCandidate storAt codeAt slot =
                  some (extractCandidate storage) := by
                simp [slotCandidate, hs, h1, h2, hc, h3]
              simp [probeSlots, hs, h1, h2, hc, h3, hsc, List.findSome?_cons]
            · have hsc : slotCandidate storAt codeAt slot = none := by
                simp only [slotCandidate, hs, if_pos h1, if_pos h2, hc, if_neg h3]
              simp only [probeSlots, hs, if_pos h1, if_pos h2, hc, if_neg h3]
              simp [hsc, List.findSome?_cons, ih]
        · have hsc : slotCandidate storAt codeAt slot = none := by
            simp only [slotCandidate, hs, if_pos h1, if_neg h2]
          simp only [probeSlots, hs, if_pos h1, if_neg h2]
          simp [hsc, List.findSome?_cons, ih]
      · have hsc : slotCandidate storAt codeAt slot = none := by
          simp only [slotCandidate, hs, if_neg h1]
        simp only [probeSlots, hs, if_neg h1]
        simp [hsc, List.findSome?_cons, ih]

/-- C5 (confirmed): proxy detection probes the fixed slot list in priority
order and returns the first candidate extracted as the low 20 bytes of a
non-zero word that is a well-formed address with non-empty code
(`findSome?` is exactly first-match in list order); a read error on one
slot never aborts probing of the remaining slots; the result is
independent of the selector set, so when no slot yields a validated
address the result is `none` (not an error) even when the selector
heuristic flagged the contract as proxy-like. -/
theorem manuallyCheckForProxy_first_valid_slot
    (storAt codeAt : String → ReadResult) (addr : String) (selectors : List String) :
    ((manuallyCheckForProxy storAt codeAt addr selectors).1 =
        commonImplementationSlots.findSome? (slotCandidate storAt codeAt))
    ∧ ((manuallyCheckForProxy storAt codeAt addr selectors).1 =
        (manuallyCheckForProxy storAt codeAt addr []).1)
    ∧ (∀ slots slot, storAt slot = .err →
        (probeSlots storAt codeAt addr (slot :: slots)).1 =
          (probeSlots storAt codeAt addr slots).1)
    ∧ ((∀ s ∈ commonImplementationSlots, slotCandidate storAt codeAt s = none) →
        (manuallyCheckForProxy storAt codeAt addr selectors).1 = none) := by
  refine ⟨probeSlots_fst storAt codeAt addr commonImplementationSlots, rfl,
    fun slots slot hs => ?_, fun hall => ?_⟩
  · have hsc : slotCandidate storAt codeAt slot = none := by
      simp [slotCandidate, hs]
    rw [probeSlots_fst, probeSlots_fst]
    simp [List.findSome?_cons, hsc]
  · unfold manuallyCheckForProxy
    rw [probeSlots_fst]
    exact List.findSome?_eq_none_iff.mpr hall

/-- C5 witness: with every slot read failing and a selector set that the
heuristic flags as proxy-like, detection still returns `none`, by the
theorem's last clause. -/
theorem manuallyCheckForProxy_first_valid_slot_witness :
    (manuallyCheckForProxy (fun _ => .err) (fun _ => .err) "0xposter"
        ["0x5c60da1b"]).1 = none
    ∧ isLikelyProxy ["0x5c60da1b"] = true :=
  ⟨(manuallyCheckForProxy_first_valid_slot (fun _ => .err) (fun _ => .err)
      "0xposter" ["0x5c60da1b"]).2.2.2 (by decide), by decide⟩

/-- A skeleton dispatch entry with the real `transfer(address,uint256)`
selector `0xa9059cbb`, used to exhibit the missing round-trip check. -/
def specimenC1 : AbiItem :=
  { type := "function", selector := some "0xa9059cbb", name := none, sig := none,
    inputs := none, outputs := none, stateMutability := none }

/-- C1 counterexample: the resolver accepts the candidate signature and
resolves the entry (name `transfer`, placeholder NOT kept) even though the
selector recomputed by the code's own `getFunctionSighash`/`keccak256` from
the resolved name and input types — `0x7472616e`, the hex of the bytes
`tran`, because `keccak256` is a hex-encoding placeholder — differs from the
entry's dispatch selector `0xa9059cbb`; no rejection happens anywhere. -/
theorem resolver_accepts_mismatched_selector :
    (processSignature specimenC1 "transfer(address,uint256)").name = some "transfer"
    ∧ (processSignature specimenC1 "transfer(address,uint256)").selector = some "0xa9059cbb"
    ∧ getFunctionSighash (getFunctionSignature "transfer"
        ((processSignature specimenC1 "transfer(address,uint256)").inputs.getD [])) =
      "0x7472616e"
    ∧ ("0x7472616e" : String) ≠ "0xa9059cbb"
    ∧ (processSignature specimenC1 "transfer(address,uint256)").name ≠
        some ("func_" ++ dropTwo "0xa9059cbb") := by
  refine ⟨rfl, rfl, by decide, by decide, by decide⟩

/-- C1 amended: `processSignature` performs no selector recomputation or
comparison at all — every candidate signature matched by the parsing regex
is accepted outright (its name is written into the entry) and the stored
dispatch selector is left untouched, whatever the relation between the two;
an entry keeps its placeholder only when no source returns a parseable
signature. -/
theorem processSignature_no_selector_check (item : AbiItem)
    (signature nm istr ostr : String)
    (h : jsFnSigMatch signature = some (nm, istr, ostr)) :
    (processSignature item signature).name = some nm
    ∧ (processSignature item signature).selector = item.selector := by
  unfold processSignature
  rw [h]
  refine ⟨?_, ?_⟩ <;> (dsimp only; repeat' split) <;> rfl

/-- C1 amended witness: a concrete parseable signature is accepted and the
selector field stays untouched, by the theorem. -/
theorem processSignature_no_selector_check_witness :
    (processSignature
      { type := "function", selector := some "0x12345678", name := none, sig := none,
        inputs := none, outputs := none, stateMutability := none } "foo(uint8)").name =
      some "foo"
    ∧ (processSignature
      { type := "function", selector := some "0x12345678", name := none, sig := none,
        inputs := none, outputs := none, stateMutability := none } "foo(uint8)").selector =
      some "0x12345678" :=
  processSignature_no_selector_check _ "foo(uint8)" "foo" "uint8" "" (by decide)

/-- A skeleton entry used to exhibit the nested-tuple mis-parse. -/
def specimenC2 : AbiItem :=
  { type := "function", selector := some "0x01020304", name := none, sig := none,
    inputs := none, outputs := none, stateMutability := none }

/-- C2 counterexample: the signature `f((uint256,address)[])`, whose single
parameter is the nested tuple-array type `(uint256,address)[]`, is parsed
into TWO inputs `(uint256` and `address` — the capture stops at the first
`)` and the split happens at every comma — instead of the one intact
composite element the claim requires. -/
theorem nested_tuple_parsed_wrong :
    (processSignature specimenC2 "f((uint256,address)[])").inputs =
      some [{ name := "param0", type := "(uint256" },
            { name := "param1", type := "address" }]
    ∧ (some [{ name := "param0", type := "(uint256" },
             { name := "param1", type := "address" }] : Option (List Param)) ≠
      some [{ name := "param0", type := "(uint256,address)[]" }] :=
  ⟨by decide, by decide⟩

lemma jsFnSigMatch_inputs_shape (signature nm istr ostr : String)
    (h : jsFnSigMatch signature = some (nm, istr, ostr)) :
    ∃ rest : List Char, istr = String.mk (rest.takeWhile (· ≠ ')')) := by
  unfold jsFnSigMatch at h
  dsimp only at h
  by_cases h0 : (signature.data.takeWhile (· ≠ '(')).isEmpty
  · rw [if_pos h0] at h; cases h
  · rw [if_neg h0] at h
    cases hd : signature.data.dropWhile (· ≠ '(') with
    | nil => rw [hd] at h; cases h
    | cons x rest =>
      rw [hd] at h
      dsimp only at h
      cases hd2 : rest.dropWhile (· ≠ ')') with
      | nil => rw [hd2] at h; cases h
      | cons y tail =>
        rw [hd2] at h
        simp only [Option.some.injEq, Prod.mk.injEq] at h
        exact ⟨rest, h.2.1.symm⟩

/-- C2 amended: the parameter capture of the signature regex never contains
a `)` (it stops at the FIRST closing parenthesis), and the captured segment
is split on EVERY comma — not only top-level ones — into `param<i>` typed
inputs; consequently only parameter lists whose types contain no commas or
parentheses are parsed into the correct ordered list, and nested
tuple/array types are torn apart. -/
theorem processSignature_splits_every_comma (item : AbiItem)
    (signature nm istr ostr : String)
    (h : jsFnSigMatch signature = some (nm, istr, ostr)) (hne : istr ≠ "") :
    (processSignature item signature).inputs =
      some (numberedParams "param" (jsSplit ',' istr))
    ∧ ∀ c ∈ istr.data, c ≠ ')' := by
  constructor
  · unfold processSignature
    rw [h]
    dsimp only
    repeat' split <;> simp_all
  · obtain ⟨rest, histr⟩ := jsFnSigMatch_inputs_shape signature nm istr ostr h
    intro c hc
    rw [histr] at hc
    have hc' : c ∈ rest.takeWhile (fun ch => ch ≠ ')') := by
      simpa using hc
    simpa using List.mem_takeWhile_imp hc'

/-- C2 amended witness: `g(a,b)` is split at its comma into two `param<i>`
inputs, by the theorem. -/
theorem processSignature_splits_every_comma_witness :
    (processSignature specimenC2 "g(a,b)").inputs =
      some (numberedParams "param" (jsSplit ',' "a,b")) :=
  (processSignature_splits_every_comma specimenC2 "g(a,b)" "g" "a,b" ""
    (by decide) (by decide)).1

/-- A resolved-name entry with NO `inputs` field (JS `undefined`), used to
show the backfill's wildcard behavior on absent inputs. -/
def specimenC8 : AbiItem :=
  { type := "function", selector := some "0xa9059cbb", name := some "transfer",
    sig := none, inputs := none, outputs := none, stateMutability := none }

/-- C8 counterexample: an entry named `transfer` with NO input list at all
is backfilled with the two-parameter `transfer` fragment's outputs and
mutability — the code's `!func.inputs` clause matches absent inputs as a
wildcard — although its input-type arity/types (there are none) do not
exactly match the fragment's `(address, uint256)`. -/
theorem backfill_applies_without_input_match :
    specimenC8.inputs = none
    ∧ (erc20Lookup (some "transfer")).map (fun f => f.inputs.length) = some 2
    ∧ (backfillOutputs specimenC8).outputs = some [{ name := "", type := "bool" }]
    ∧ (backfillOutputs specimenC8).stateMutability = some "nonpayable"
    ∧ (processABI [specimenC8]).map ContractFunction.outputs =
        [[{ name := "output0", type := "bool" }]] :=
  ⟨rfl, by decide, by decide, by decide, by decide⟩

/-- C8 amended: the backfill touches an entry only when its outputs are
missing or empty and its name hits the fallback table, and it requires the
input types to match the fragment exactly ONLY when an input list is
present — an absent (`undefined`) input list matches any fragment as a
wildcard; in the applying cases exactly the fragment's outputs and
mutability are copied, and an entry that already has a non-empty output
set is never modified. -/
theorem backfill_only_on_fragment_fit (func : AbiItem) :
    (∀ o os, func.outputs = some (o :: os) → backfillOutputs func = func)
    ∧ (∀ frag, outputsMissing func.outputs = true →
        erc20Lookup func.name = some frag →
        fragmentInputsMatch func.inputs frag = true →
        (backfillOutputs func).outputs = some frag.outputs
        ∧ (backfillOutputs func).stateMutability = some frag.stateMutability
        ∧ (backfillOutputs func).name = func.name
        ∧ (backfillOutputs func).inputs = func.inputs
        ∧ (backfillOutputs func).selector = func.selector)
    ∧ (∀ frag, outputsMissing func.outputs = true →
        erc20Lookup func.name = some frag →
        fragmentInputsMatch func.inputs frag = false →
        backfillOutputs func = func)
    ∧ (erc20Lookup func.name = none → backfillOutputs func = func) := by
  refine ⟨fun o os ho => ?_, fun frag hmiss hfrag hmatch => ?_, 
    fun frag hmiss hfrag hmatch => ?_, fun hfrag => ?_⟩
  · unfold backfillOutputs
    rw [if_neg]
    rw [ho]
    simp [outputsMissing]
  · unfold backfillOutputs
    rw [if_pos hmiss, hfrag]
    dsimp only
    rw [if_pos hmatch]
    exact ⟨rfl, rfl, rfl, rfl, rfl⟩
  · unfold backfillOutputs
    rw [if_pos hmiss, hfrag]
    dsimp only
    rw [if_neg (by simp [hmatch])]
  · unfold backfillOutputs
    rw [hfrag]
    split <;> rfl

/-- C8 amended witness: a `balanceOf` entry with exactly matching input
types and empty outputs receives the fragment's outputs and `view`
mutability, by the applying clause of the theorem. -/
theorem backfill_only_on_fragment_fit_witness :
    (backfillOutputs
      { type := "function", selector := some "0x70a08231", name := some "balanceOf",
        sig := none, inputs := some [{ name := "param0", type := "address" }],
        outputs := some [], stateMutability := none }).outputs =
      some [{ name := "", type := "uint256" }]
    ∧ (backfillOutputs
      { type := "function", selector := some "0x70a08231", name := some "balanceOf",
        sig := none, inputs := some [{ name := "param0", type := "address" }],
        outputs := some [], stateMutability := none }).stateMutability = some "view" := by
  have h := ((backfill_only_on_fragment_fit
      { type := "function", selector := some "0x70a08231", name := some "balanceOf",
        sig := none, inputs := some [{ name := "param0", type := "address" }],
        outputs := some [], stateMutability := none }).2.1
    { type := "function", name := "balanceOf",
      inputs := [{ name := "owner", type := "address" }],
      outputs := [{ name := "", type := "uint256" }], stateMutability := "view" }
    (by decide) (by decide) (by decide))
  exact ⟨h.1, h.2.1⟩

/-- An environment whose RPC reports no bytecode anywhere; used to trace the
network requests that `parseContract` issues for a malformed address. -/
def envC4 : Env :=
  { clientChainId := 1, code := fun _ => none, storageAt := fun _ _ => .err,
    codeAt := fun _ => .err, sigLookup := fun _ => .err, fourByte := fun _ => .fail,
    selectorsFromBytecode := fun _ => [], abiFromBytecode := fun _ => [],
    autoload := fun _ => .error () }

/-- C4 counterexample: the malformed address `not-an-address` passes
`parseContract`'s guard (which only rejects empty/`0x`/zero-address
strings), so the call issues a `getChainId` and a `getCode` network request
— NOT zero requests — before failing, and it fails with the no-bytecode
error rather than an invalid-address rejection. -/
theorem parseContract_networks_on_malformed :
    isAddress "not-an-address" = false
    ∧ parseContractAddrGuard "not-an-address" = false
    ∧ (parseContract envC4 { currentChainId := 1, abiCache := [] } "not-an-address").2.2 =
        [NetCall.chainIdCall, NetCall.ethGetCode "not-an-address"]
    ∧ (parseContract envC4 { currentChainId := 1, abiCache := [] } "not-an-address").2.2 ≠ []
    ∧ (parseContract envC4 { currentChainId := 1, abiCache := [] } "not-an-address").1 =
        .error "No bytecode found for contract" :=
  ⟨by decide, by decide, by decide, by decide, rfl⟩

/-- C4 amended: only `getContractFunctions` rejects a malformed address
before any network request (its `isAddress` guard runs first and the
returned trace is empty); `parseContract` — the entry point the ABI route
calls directly — only rejects empty/`0x`/zero-address strings and issues
network requests for any other malformed input. -/
theorem getContractFunctions_rejects_before_network (env : Env)
    (getAddr : String → String) (st : WrapperState) (addr : String)
    (h : isAddress addr = false) :
    getContractFunctions env getAddr st addr =
      (.error ("Invalid address: " ++ addr), st, ([] : List NetCall)) := by
  unfold getContractFunctions
  rw [h]
  simp

/-- C4 amended witness: the concrete malformed input is rejected with an
empty request trace, by the theorem. -/
theorem getContractFunctions_rejects_before_network_witness :
    getContractFunctions envC4 id { currentChainId := 1, abiCache := [] }
      "not-an-address" =
      (.error ("Invalid address: " ++ "not-an-address"),
        { currentChainId := 1, abiCache := [] }, ([] : List NetCall)) :=
  getContractFunctions_rejects_before_network envC4 id
    { currentChainId := 1, abiCache := [] } "not-an-address" (by decide)

/-- Proxy-side function entry sharing selector `0x11111111`. -/
def proxyFnC6 : AbiItem :=
  { type := "function", selector := some "0x11111111", name := some "proxyFn",
    sig := none, inputs := some [], outputs := some [],
    stateMutability := some "nonpayable" }

/-- Implementation-side function entry with the SAME selector. -/
def implFnC6 : AbiItem :=
  { type := "function", selector := some "0x11111111", name := some "implFn",
    sig := none, inputs := some [], outputs := some [],
    stateMutability := some "nonpayable" }

/-- The implementation address stored (as its low 20 bytes) in the EIP-1967
slot of the scenario. -/
def implAddrC6 : String := "0x1111111111111111111111111111111111111111"

/-- The 32-byte EIP-1967 slot value whose low 20 bytes are `implAddrC6`. -/
def implWordC6 : String :=
  "0x0000000000000000000000001111111111111111111111111111111111111111"

/-- The proxy contract address of the scenario. -/
def addrC6 : String := "0xaaaaaaaaaaaaaaaaaaaaaaaaaaaaaaaaaaaaaaaa"

/-- Scenario environment: chain 421614 (manual path), the proxy bytecode
yields `proxyFnC6`, the EIP-1967 slot resolves to `implAddrC6` whose
bytecode yields `implFnC6`, and all signature sources fail. -/
def envC6 : Env :=
  { clientChainId := 421614,
    code := fun a =>
      if a = addrC6 then some "0xproxycode"
      else if a = implAddrC6 then some "0ximplcode" else none,
    storageAt := fun _ slot =>
      if slot = "0x360894a13ba1a3210667c828492db98dca3e2076cc3735a920a3ca505d382bbc" then
        .ok implWordC6
      else .err,
    codeAt := fun a => if a = implAddrC6 then .ok "0x60" else .err,
    sigLookup := fun _ => .err, fourByte := fun _ => .fail,
    selectorsFromBytecode := fun _ => ["0x11111111", "0x3659cfe6"],
    abiFromBytecode := fun c =>
      if c = "0xproxycode" then [proxyFnC6]
      else if c = "0ximplcode" then [implFnC6] else [],
    autoload := fun _ => .error () }

/-- C6 counterexample: with a selector collision between proxy and
implementation, the assembled result contains BOTH entries (no
deduplication, uniqueness by selector is violated), ordered proxy first, so
the entry found for the shared selector in the final result is the PROXY's
entry `proxyFn`, not the implementation's — the implementation does not win
the collision. -/
theorem merged_result_keeps_proxy_entry :
    (parseContract envC6 { currentChainId := 421614, abiCache := [] } addrC6).1 =
      .ok { abi := [proxyFnC6, implFnC6], address := implAddrC6,
            selectors := some ["0x11111111", "0x3659cfe6"], proxy := some implAddrC6 }
    ∧ proxyFnC6.selector = implFnC6.selector
    ∧ proxyFnC6 ≠ implFnC6
    ∧ [proxyFnC6, implFnC6].find? (fun it => it.selector = some "0x11111111") =
        some proxyFnC6
    ∧ List.countP (fun it => it.selector = some "0x11111111") [proxyFnC6, implFnC6] = 2 :=
  ⟨rfl, rfl, by decide, by decide, by decide⟩

/-- C6 amended: when the manual proxy check finds an implementation with
non-empty code, the merged ABI is the plain CONCATENATION of the enhanced
proxy entries followed by the enhanced implementation entries — nothing is
deduplicated — and therefore any first-match lookup over the merged list
resolves every selector collision in favor of the PROXY's entry (the
implementation address is still the one surfaced in the result). -/
theorem manual_merge_concatenates_proxy_first (env : Env)
    (addr code impl implCode : String)
    (hprobe : (manuallyCheckForProxy (env.storageAt addr) env.codeAt addr
        (env.selectorsFromBytecode code)).1 = some impl)
    (hcode : env.code impl = some implCode)
    (h1 : implCode ≠ "") (h2 : implCode ≠ "0x") :
    ((manualBranch env addr code).1.abi =
        (enhanceAbiWithSignatures env (env.abiFromBytecode code)).1 ++
        (enhanceAbiWithSignatures env (env.abiFromBytecode implCode)).1)
    ∧ (manualBranch env addr code).1.address = impl
    ∧ (manualBranch env addr code).1.proxy = some impl
    ∧ ∀ (p : AbiItem → Bool) (item : AbiItem),
        (enhanceAbiWithSignatures env (env.abiFromBytecode code)).1.find? p = some item →
        ((manualBranch env addr code).1.abi).find? p = some item := by
  have hb : manualBranch env addr code =
      ({ abi := (enhanceAbiWithSignatures env (env.abiFromBytecode code)).1 ++
            (enhanceAbiWithSignatures env (env.abiFromBytecode implCode)).1,
         address := impl,
         selectors := some (env.selectorsFromBytecode code), proxy := some impl },
        (enhanceAbiWithSignatures env (env.abiFromBytecode code)).2 ++
          (manuallyCheckForProxy (env.storageAt addr) env.codeAt addr
            (env.selectorsFromBytecode code)).2 ++ [.ethGetCode impl] ++
          (enhanceAbiWithSignatures env (env.abiFromBytecode implCode)).2) := by
    unfold manualBranch
    dsimp only
    rw [hprobe]
    dsimp only
    rw [hcode]
    dsimp only
    rw [if_pos ⟨h1, h2⟩]
  rw [hb]
  exact ⟨rfl, rfl, rfl, fun p item h => find?_append_of_left p _ _ item h⟩

/-- C6 amended witness: the scenario environment instantiates the theorem —
the merged ABI is the proxy entries followed by the implementation
entries. -/
theorem manual_merge_concatenates_proxy_first_witness :
    (manualBranch envC6 addrC6 "0xproxycode").1.abi =
      (enhanceAbiWithSignatures envC6 (envC6.abiFromBytecode "0xproxycode")).1 ++
      (enhanceAbiWithSignatures envC6 (envC6.abiFromBytecode "0ximplcode")).1 :=
  (manual_merge_concatenates_proxy_first envC6 addrC6 "0xproxycode" implAddrC6
    "0ximplcode" (by decide) (by decide) (by decide) (by decide)).1

lemma parseContractResolve_ok_cached (env : Env) (s : WrapperState) (addr : String)
    (r : WhatsABIResult) (st1 : WrapperState) (t : List NetCall)
    (h : parseContractResolve env s addr = (.ok r, st1, t)) :
    cacheGet st1.abiCache (parseCacheKey addr st1.currentChainId) = some r
    ∧ st1.currentChainId = s.currentChainId := by
  unfold parseContractResolve at h
  dsimp only at h
  cases hcache : cacheGet s.abiCache (parseCacheKey addr s.currentChainId) with
  | some rc =>
    rw [hcache] at h
    dsimp only at h
    simp only [Prod.mk.injEq, Except.ok.injEq] at h
    obtain ⟨hr, hst, ht⟩ := h
    subst hr
    subst hst
    exact ⟨hcache, rfl⟩
  | none =>
    rw [hcache] at h
    dsimp only at h
    cases hcode : env.code addr with
    | none =>
      rw [hcode] at h
      dsimp only at h
      simp at h
    | some code =>
      rw [hcode] at h
      dsimp only at h
      by_cases hempty : code = "" ∨ code = "0x"
      · rw [if_pos hempty] at h
        simp at h
      · rw [if_neg hempty] at h
        by_cases hen : shouldEnableProxyResolution s.currentChainId = true
        · rw [if_pos hen] at h
          cases haut : env.autoload addr with
          | ok pr =>
            obtain ⟨abi, raddr⟩ := pr
            rw [haut] at h
            dsimp only at h
            simp only [Prod.mk.injEq, Except.ok.injEq] at h
            obtain ⟨hr, hst, ht⟩ := h
            subst hr
            subst hst
            exact ⟨cacheGet_set _ _ _, rfl⟩
          | error e =>
            rw [haut] at h
            dsimp only at h
            simp only [Prod.mk.injEq, Except.ok.injEq] at h
            obtain ⟨hr, hst, ht⟩ := h
            subst hr
            subst hst
            exact ⟨cacheGet_set _ _ _, rfl⟩
        · rw [if_neg hen] at h
          simp only [Prod.mk.injEq, Except.ok.injEq] at h
          obtain ⟨hr, hst, ht⟩ := h
          subst hr
          subst hst
          exact ⟨cacheGet_set _ _ _, rfl⟩

/-- C7 amended: a successful `parseContract` call leaves the result cached
under the lowercased-address/chain-id key, so a second call in succession
returns the bit-identical cached result, leaves the state untouched, and
issues EXACTLY ONE network request — the unconditional `getChainId` probe
that precedes the cache check — rather than the zero requests the claim
states; the key is case-insensitive in the address, so any
case-variant of the address hits the same entry. -/
theorem parseContract_second_call_cached (env : Env) (st : WrapperState)
    (addr : String) (r : WhatsABIResult) (st1 : WrapperState) (t : List NetCall)
    (h : parseContract env st addr = (.ok r, st1, t)) :
    parseContract env st1 addr = (.ok r, st1, [NetCall.chainIdCall])
    ∧ ∀ addr2, jsToLower addr2 = jsToLower addr →
        parseContractAddrGuard addr2 = false →
        parseContract env st1 addr2 = (.ok r, st1, [NetCall.chainIdCall]) := by
  unfold parseContract at h
  by_cases hg : parseContractAddrGuard addr = true
  · rw [if_pos hg] at h
    simp at h
  · rw [if_neg hg] at h
    obtain ⟨hcache, hchain⟩ := parseContractResolve_ok_cached env _ addr r st1 t h
    have hchain1 : st1.currentChainId = env.clientChainId := by
      by_cases hc : env.clientChainId ≠ st.currentChainId
      · rw [if_pos hc] at hchain
        exact hchain
      · rw [if_neg hc] at hchain
        rw [hchain]
        exact (not_ne_iff.mp hc).symm
    have hmain : ∀ addr2, jsToLower addr2 = jsToLower addr →
        parseContractAddrGuard addr2 = false →
        parseContract env st1 addr2 = (.ok r, st1, [NetCall.chainIdCall]) := by
      intro addr2 hl hg2
      unfold parseContract
      rw [if_neg (by simp [hg2])]
      have hne : ¬(env.clientChainId ≠ st1.currentChainId) := by
        rw [hchain1]
        simp
      rw [if_neg hne]
      unfold parseContractResolve
      dsimp only
      have hkey : parseCacheKey addr2 st1.currentChainId =
          parseCacheKey addr st1.currentChainId := by
        unfold parseCacheKey
        rw [hl]
      rw [hkey, hcache]
    exact ⟨hmain addr rfl (by simpa using hg), hmain⟩

/-- Scenario environment for the cache claims: chain 421614 (manual path),
bytecode present everywhere, all probes and lookups failing. -/
def envC7 : Env :=
  { clientChainId := 421614, code := fun _ => some "0x6080",
    storageAt := fun _ _ => .err, codeAt := fun _ => .err,
    sigLookup := fun _ => .err, fourByte := fun _ => .fail,
    selectorsFromBytecode := fun _ => [], abiFromBytecode := fun _ => [],
    autoload := fun _ => .error () }

/-- The contract address of the cache scenario. -/
def addrC7 : String := "0xbbbbbbbbbbbbbbbbbbbbbbbbbbbbbbbbbbbbbbbb"

/-- The result the cache scenario assembles on the first call. -/
def rC7 : WhatsABIResult :=
  { abi := [], address := addrC7, selectors := some [], proxy := none }

/-- The wrapper state after the first call of the cache scenario. -/
def st1C7 : WrapperState :=
  { currentChainId := 421614, abiCache := [(parseCacheKey addrC7 421614, rC7)] }

/-- C7 counterexample: the second identical call returns the bit-identical
cached result BUT still issues one network request (the unconditional
`getChainId` probe that runs before the cache lookup), so the claim's
"zero additional network requests" is false. -/
theorem second_call_issues_network_request :
    (parseContract envC7 (parseContract envC7
        { currentChainId := 421614, abiCache := [] } addrC7).2.1 addrC7).2.2 =
      [NetCall.chainIdCall]
    ∧ ([NetCall.chainIdCall] : List NetCall) ≠ []
    ∧ (parseContract envC7 (parseContract envC7
        { currentChainId := 421614, abiCache := [] } addrC7).2.1 addrC7).1 =
      (parseContract envC7 { currentChainId := 421614, abiCache := [] } addrC7).1 :=
  ⟨by decide, by decide, rfl⟩

/-- C7 amended witness: the theorem applied to the concrete first call —
the second call (also under a case-variant spelling of the address) is the
identical cached result with exactly the `getChainId` request. -/
theorem parseContract_second_call_cached_witness :
    parseContract envC7 st1C7 addrC7 = (.ok rC7, st1C7, [NetCall.chainIdCall])
    ∧ parseContract envC7 st1C7 "0xBBBBBBBBBBBBBBBBBBBBBBBBBBBBBBBBBBBBBBBB" =
      (.ok rC7, st1C7, [NetCall.chainIdCall]) := by
  have h : parseContract envC7 { currentChainId := 421614, abiCache := [] } addrC7 =
      (.ok rC7, st1C7,
        [NetCall.chainIdCall, NetCall.ethGetCode addrC7,
         NetCall.storage addrC7
           "0x360894a13ba1a3210667c828492db98dca3e2076cc3735a920a3ca505d382bbc",
         NetCall.storage addrC7
           "0xa3f0ad74e5423aebfd80d3ef4346578335a9a72aeaee59ff6cb3582b35133d50",
         NetCall.storage addrC7
           "0x7050c9e0f4ca769c69bd3a8ef740bc37934f8e2c036e5a723fd8ee048ed3f8c3",
         NetCall.storage addrC7
           "0x0000000000000000000000000000000000000000000000000000000000000000"]) := rfl
  have H := parseContract_second_call_cached envC7
    { currentChainId := 421614, abiCache := [] } addrC7 rC7 st1C7 _ h
  exact ⟨H.1, H.2 "0xBBBBBBBBBBBBBBBBBBBBBBBBBBBBBBBBBBBBBBBB" (by decide) (by decide)⟩
